import Mathlib

/-!
Verification of the elon-hub data-ingestion and retention pipeline.

The definitions below are a shallow embedding of the repository's TypeScript
source: `src/app/api/cron/update/route.ts` (parsing, deduplication, company
tagging), `src/lib/db.ts` (persistence: cleanup, upsert, trend replace,
sentiment history), `src/app/api/articles/route.ts` (read cache), and
`src/app/page.tsx` (client refresh guard).  Machine times are `Int`
milliseconds; JSON-shaped values use `Option` for possibly-absent fields;
the external `JSON.parse` is abstracted by a success predicate passed as a
parameter.
-/

/-- A post object as produced by `JSON.parse` on the model's reply
(`ParsedPost` in `route.ts`).  Every field can be absent or null in the
actual JSON, so each is modelled as an `Option`. -/
structure ParsedPost where
  title : Option String
  image_url : Option String
  video_url : Option String
  media_analysis : Option String
  media_sentiment : Option String
  url : Option String
  sentiment : Option String
  company : Option String
  timestamp : Option String
  snippet : Option String
deriving DecidableEq

/-- The string value of a post's url, with absent/null read as "".  JS
`!post.url` is true exactly when `postUrl p = ""` (undefined, null and the
empty string are all falsy). -/
def postUrl (p : ParsedPost) : String :=
  p.url.getD ""

/-- JS truthiness test `!post.url`. -/
def urlFalsy (p : ParsedPost) : Bool :=
  postUrl p == ""

/-- Loop body of `deduplicatePosts`: the `filter` callback over a mutable
`seen : Set<string>`, embedded by threading `seen` explicitly.
Source: `deduplicatePosts` in `src/app/api/cron/update/route.ts` lines
337-344: `if (!post.url || seen.has(post.url)) return false;
seen.add(post.url); return true;`. -/
def dedupeGo (seen : List String) : List ParsedPost → List ParsedPost
  | [] => []
  | p :: ps =>
    if urlFalsy p || seen.contains (postUrl p) then dedupeGo seen ps
    else p :: dedupeGo (postUrl p :: seen) ps

/-- `deduplicatePosts` from `src/app/api/cron/update/route.ts`. -/
def deduplicatePosts (posts : List ParsedPost) : List ParsedPost :=
  dedupeGo [] posts

/-- A sample post with url "a". -/
def samplePostA : ParsedPost :=
  ⟨some "first a", none, none, none, none, some "a", some "positive",
    some "Tesla", some "t", none⟩

/-- A second sample post with the same url "a" but different fields. -/
def samplePostA2 : ParsedPost :=
  ⟨some "second a", none, none, none, none, some "a", some "negative",
    some "SpaceX", some "t2", none⟩

/-- A sample post with url "b". -/
def samplePostB : ParsedPost :=
  ⟨some "b post", none, none, none, none, some "b", some "neutral",
    some "xAI", some "t3", none⟩

/-- A sample post with no url. -/
def samplePostNoUrl : ParsedPost :=
  ⟨some "no url", none, none, none, none, none, some "neutral",
    none, some "t4", none⟩

/-- First index at which `pat` occurs as a contiguous run inside `s`,
scanning left to right (the leftmost position at which a regex literal can
match). -/
def findSub (pat : List Char) : List Char → Option Nat
  | [] => if pat.isPrefixOf ([] : List Char) then some 0 else none
  | c :: cs =>
    if pat.isPrefixOf (c :: cs) then some 0
    else (findSub pat cs).map (fun n => n + 1)

/-- The text captured by the JS pattern openTok + lazy-any + closeTok: the
leftmost occurrence of `openTok`, then the shortest body up to the next
`closeTok`.  (If the first `openTok` has no `closeTok` after it, no later
one has either, so the whole pattern fails to match.) -/
def extractBetween (openTok closeTok text : List Char) : Option (List Char) :=
  match findSub openTok text with
  | none => none
  | some i =>
    let rest := text.drop (i + openTok.length)
    match findSub closeTok rest with
    | none => none
    | some j => some (rest.take j)

/-- Opening literal of the fenced json block regex in `parseJsonResponse`. -/
def jsonFenceOpenTok : List Char := "```json\n".data

/-- Opening literal of the bare fenced block regex. -/
def bareFenceOpenTok : List Char := "```\n".data

/-- Closing literal of both fenced block regexes. -/
def fenceCloseTok : List Char := "\n```".data

/-- Result of `parseJsonResponse`, abstracting the external `JSON.parse`:
`parsedFrom c` records that `JSON.parse` succeeded on candidate string `c`
(the returned value is then `JSON.parse c`, a function of `c` alone);
`defaultValue` is the canonical default
(posts [], trends [], sentiment_overview (neutral, 0.5)). -/
inductive ParseOutcome where
  | parsedFrom (candidate : List Char)
  | defaultValue
deriving DecidableEq

/-- `parseJsonResponse` from `src/app/api/cron/update/route.ts` lines
318-334, parameterised by the success predicate `jparse` of the external
`JSON.parse`.  The `string | undefined` argument is an `Option`; JS
`!text` is true for `undefined` and for the empty string. -/
def parseJsonResponse (jparse : List Char → Bool) :
    Option (List Char) → ParseOutcome
  | none => .defaultValue
  | some text =>
    if text.isEmpty then .defaultValue
    else
      let jsonMatch :=
        match extractBetween jsonFenceOpenTok fenceCloseTok text with
        | some m => some m
        | none => extractBetween bareFenceOpenTok fenceCloseTok text
      let jsonStr :=
        match jsonMatch with
        | some m => m
        | none => text
      if jparse jsonStr then .parsedFrom jsonStr
      else if jparse text then .parsedFrom text
      else .defaultValue

/-- The parser algorithm exactly as claim C4 states it: try, in order, the
fenced json block content, the bare fenced block content and the whole
string, parsing each candidate as JSON and falling through to the NEXT
candidate on a candidate's parse failure; default if all fail. -/
def parseSpecClaimed (jparse : List Char → Bool) :
    Option (List Char) → ParseOutcome
  | none => .defaultValue
  | some text =>
    if text.isEmpty then .defaultValue
    else
      let candidates :=
        (match extractBetween jsonFenceOpenTok fenceCloseTok text with
          | some m => [m]
          | none => []) ++
        (match extractBetween bareFenceOpenTok fenceCloseTok text with
          | some m => [m]
          | none => []) ++ [text]
      match candidates.find? jparse with
      | some c => .parsedFrom c
      | none => .defaultValue

/-- The parser algorithm as amended: one primary candidate is chosen (the
fenced json block content if that regex matches, else the bare fenced
block content if that one matches, else the whole string); if the primary
candidate fails to parse the whole string is re-tried; if that also fails
the canonical default is returned. -/
def parseAmendedSpec (jparse : List Char → Bool) :
    Option (List Char) → ParseOutcome
  | none => .defaultValue
  | some text =>
    if text.isEmpty then .defaultValue
    else
      let primary :=
        match extractBetween jsonFenceOpenTok fenceCloseTok text with
        | some m => m
        | none =>
          match extractBetween bareFenceOpenTok fenceCloseTok text with
          | some m => m
          | none => text
      match List.find? jparse [primary, text] with
      | some c => .parsedFrom c
      | none => .defaultValue

/-- A parse-success predicate agreeing with `JSON.parse` on the strings
exercised below: exactly the string "7" is valid JSON among them. -/
def onlySevenIsJson : List Char → Bool := fun s => s == "7".data

/-- A model reply whose fenced json block holds invalid JSON, whose bare
fenced block (located after the json block) holds the valid JSON "7", and
which is invalid JSON as a whole. -/
def fallThroughText : List Char := "```json\nbad\n```x\n```\n7\n```".data

/-- Post-processing in `fetchCompanyXData` (route.ts line 150): every
parsed post is re-tagged with the configured company name, overriding
whatever the model wrote. -/
def fetchCompanyXDataTag (name : String) (posts : List ParsedPost) : List ParsedPost :=
  posts.map (fun p => { p with company := some name })

/-- Post-processing in `fetchCompanyNewsData` (route.ts line 199): same
re-tagging as the X-search path. -/
def fetchCompanyNewsDataTag (name : String) (posts : List ParsedPost) : List ParsedPost :=
  posts.map (fun p => { p with company := some name })

/-- Post-processing in `fetchGeneralElonNewsFromGroup` (route.ts line 249):
the parsed posts are returned unchanged. -/
def fetchGeneralElonNewsTag (posts : List ParsedPost) : List ParsedPost :=
  posts

/-- A parsed post to which the model assigned no company value. -/
def postNoCompany : ParsedPost :=
  ⟨some "untagged", none, none, none, none, some "u1", some "neutral",
    none, some "t5", none⟩

/-- Machine time in milliseconds since the epoch (JS `Date.now()` /
Postgres `NOW()`). -/
abbrev Millis := Int

/-- `ARTICLE_RETENTION_HOURS` from `src/lib/db.ts`. -/
def ARTICLE_RETENTION_HOURS : Int := 48

/-- The retention window in milliseconds
(`ARTICLE_RETENTION_HOURS * 60 * 60 * 1000`). -/
def retentionMillis : Int := ARTICLE_RETENTION_HOURS * 60 * 60 * 1000

/-- The cutoff computed by `cleanupOldArticles`: rows strictly older are
deleted. -/
def cleanupCutoff (now : Millis) : Millis := now - retentionMillis

/-- Input record of `saveRadarData` (the db-layer `Article` interface):
NOT NULL columns are plain values, nullable columns are `Option`. -/
structure ArticleInput where
  title : String
  image_url : Option String
  video_url : Option String
  media_analysis : Option String
  media_sentiment : Option String
  url : String
  sentiment : String
  company : String
  timestamp : String
  snippet : Option String
deriving DecidableEq

/-- A row of the `articles` table. -/
structure ArticleRow where
  id : Nat
  title : String
  image_url : Option String
  video_url : Option String
  media_analysis : Option String
  media_sentiment : Option String
  url : String
  sentiment : String
  company : String
  timestamp : String
  snippet : Option String
  created_at : Millis
deriving DecidableEq

/-- Input record for a trend (`Trend` interface; `score` is SQL REAL,
modelled as an exact rational). -/
structure TrendInput where
  name : String
  score : Rat
  sentiment : String
deriving DecidableEq

/-- A row of the `trends` table. -/
structure TrendRow where
  id : Nat
  name : String
  score : Rat
  sentiment : String
  created_at : Millis
deriving DecidableEq

/-- Input record for the sentiment overview. -/
structure SentimentInput where
  overall : String
  score : Rat
  media_insights : Option String
deriving DecidableEq

/-- A row of the `sentiment_overview` table. -/
structure SentimentRow where
  id : Nat
  overall : String
  score : Rat
  media_insights : Option String
  created_at : Millis
deriving DecidableEq

/-- The database state: the three tables (rows listed in insertion order)
plus the next value of each SERIAL id sequence. -/
structure Db where
  articles : List ArticleRow
  trends : List TrendRow
  sentiment_overview : List SentimentRow
  nextArticleId : Nat
  nextTrendId : Nat
  nextSentimentId : Nat
deriving DecidableEq

/-- A freshly initialised, empty database. -/
def emptyDb : Db := ⟨[], [], [], 1, 1, 1⟩

/-- The rows surviving `cleanupOldArticles`:
`DELETE FROM articles WHERE created_at < cutoff` keeps exactly the rows
with `cleanupCutoff now ≤ created_at`. -/
def cleanupKeep (now : Millis) (rows : List ArticleRow) : List ArticleRow :=
  rows.filter (fun r => decide (cleanupCutoff now ≤ r.created_at))

/-- `cleanupOldArticles` from `src/lib/db.ts`: deletes expired article rows
and returns the deleted-row count. -/
def cleanupOldArticles (now : Millis) (db : Db) : Db × Nat :=
  ({ db with articles := cleanupKeep now db.articles },
    db.articles.length - (cleanupKeep now db.articles).length)

/-- The `DO UPDATE SET` clause of the upsert: every mutable field is
replaced from the incoming article; `url`, `id` and `created_at` are not in
the SET list and stay untouched. -/
def applyArticleUpdate (a : ArticleInput) (r : ArticleRow) : ArticleRow :=
  { r with
    title := a.title
    image_url := a.image_url
    video_url := a.video_url
    media_analysis := a.media_analysis
    media_sentiment := a.media_sentiment
    sentiment := a.sentiment
    company := a.company
    timestamp := a.timestamp
    snippet := a.snippet }

/-- A fresh row for the INSERT branch: SERIAL id, `created_at DEFAULT NOW()`. -/
def freshArticleRow (now : Millis) (id : Nat) (a : ArticleInput) : ArticleRow :=
  ⟨id, a.title, a.image_url, a.video_url, a.media_analysis, a.media_sentiment,
    a.url, a.sentiment, a.company, a.timestamp, a.snippet, now⟩

/-- One `INSERT ... ON CONFLICT (url) DO UPDATE` statement against a table
with the unique-url constraint: update the conflicting row in place, or
append a fresh row. -/
def upsertArticle (now : Millis) (a : ArticleInput) (db : Db) : Db :=
  if db.articles.any (fun r => r.url == a.url) then
    { db with
      articles :=
        db.articles.map (fun r => if r.url == a.url then applyArticleUpdate a r else r) }
  else
    { db with
      articles := db.articles ++ [freshArticleRow now db.nextArticleId a]
      nextArticleId := db.nextArticleId + 1 }

/-- JS `v || null` applied to a nullable string: undefined, null and ""
all become null. -/
def jsOrNull (v : Option String) : Option String :=
  match v with
  | some s => if s == "" then none else some s
  | none => none

/-- Number of sentiment rows strictly more recent than `r`. -/
def newerCount (rows : List SentimentRow) (r : SentimentRow) : Nat :=
  (rows.filter (fun q => decide (r.created_at < q.created_at))).length

/-- `DELETE FROM sentiment_overview WHERE id NOT IN (SELECT id ... ORDER BY
created_at DESC LIMIT 100)`: keeps the 100 most recent rows.  A row
survives exactly when fewer than 100 rows are strictly more recent; with
distinct `created_at` values (the case the theorems below are stated for)
this is precisely the SQL behaviour, whose tie-breaking is otherwise
unspecified. -/
def keepTop100Sentiment (rows : List SentimentRow) : List SentimentRow :=
  rows.filter (fun r => decide (newerCount rows r < 100))

/-- `saveRadarData` from `src/lib/db.ts`: cleanup, per-article upserts in
list order, trend replace, sentiment append plus history cap.  Returns the
new database and (newArticlesCount, deletedCount).  In the model no upsert
can violate a constraint, so every article counts as processed. -/
def saveRadarData (now : Millis) (articles : List ArticleInput)
    (trends : List TrendInput) (sentimentOverview : SentimentInput)
    (db : Db) : Db × Nat × Nat :=
  let db1 : Db := { db with articles := cleanupKeep now db.articles }
  let deletedCount := db.articles.length - db1.articles.length
  let db2 := articles.foldl (fun d a => upsertArticle now a d) db1
  let newTrendRows : List TrendRow :=
    (trends.enum).map
      (fun it => ⟨db2.nextTrendId + it.1, it.2.name, it.2.score, it.2.sentiment, now⟩)
  let newSentimentRow : SentimentRow :=
    ⟨db2.nextSentimentId, sentimentOverview.overall, sentimentOverview.score,
      jsOrNull sentimentOverview.media_insights, now⟩
  (⟨db2.articles, newTrendRows,
      keepTop100Sentiment (db2.sentiment_overview ++ [newSentimentRow]),
      db2.nextArticleId, db2.nextTrendId + trends.length,
      db2.nextSentimentId + 1⟩,
    articles.length, deletedCount)

/-- The article rows carrying a given url. -/
def urlRows (u : String) (db : Db) : List ArticleRow :=
  db.articles.filter (fun r => r.url == u)

/-- One ingestion cycle's save inputs. -/
structure CycleInput where
  now : Millis
  articles : List ArticleInput
  trends : List TrendInput
  sentimentOverview : SentimentInput
deriving DecidableEq

/-- Run a sequence of save cycles against the database. -/
def runSaveCycles (inputs : List CycleInput) (db : Db) : Db :=
  inputs.foldl
    (fun d i => (saveRadarData i.now i.articles i.trends i.sentimentOverview d).1) db

/-- The `created_at` column of the sentiment history, in table order. -/
def sentimentTimes (db : Db) : List Millis :=
  db.sentiment_overview.map (fun r => r.created_at)

/-- The last `n` elements of a list. -/
def lastN (n : Nat) (l : List α) : List α :=
  l.drop (l.length - n)

/-- A post as served by `getRadarData` (article row without id and
created_at). -/
structure PostView where
  title : String
  image_url : Option String
  video_url : Option String
  media_analysis : Option String
  media_sentiment : Option String
  url : String
  sentiment : String
  company : String
  timestamp : String
  snippet : Option String
deriving DecidableEq

/-- A trend as served by `getRadarData`. -/
structure TrendView where
  name : String
  score : Rat
  sentiment : String
deriving DecidableEq

/-- The sentiment overview as served by `getRadarData`. -/
structure SentimentView where
  overall : String
  score : Rat
  media_insights : Option String
deriving DecidableEq

/-- The `data` payload served to clients. -/
structure RadarData where
  posts : List PostView
  trends : List TrendView
  sentiment_overview : SentimentView
deriving DecidableEq

/-- Projection of an article row to its served shape. -/
def articleRowView (r : ArticleRow) : PostView :=
  ⟨r.title, r.image_url, r.video_url, r.media_analysis, r.media_sentiment,
    r.url, r.sentiment, r.company, r.timestamp, r.snippet⟩

/-- `ORDER BY created_at DESC` on articles (tie order unspecified by SQL;
modelled as a stable sort). -/
def sortArticlesDesc (rows : List ArticleRow) : List ArticleRow :=
  List.insertionSort (fun a b => b.created_at ≤ a.created_at) rows

/-- `ORDER BY score DESC` on trends. -/
def sortTrendsDesc (rows : List TrendRow) : List TrendRow :=
  List.insertionSort (fun a b => b.score ≤ a.score) rows

/-- `ORDER BY created_at DESC` on the sentiment history. -/
def sortSentimentDesc (rows : List SentimentRow) : List SentimentRow :=
  List.insertionSort (fun a b => b.created_at ≤ a.created_at) rows

/-- `getRadarData` from `src/lib/db.ts`: all articles newest first, all
trends by score, and the most recent sentiment row, with the canonical
neutral default when the history is empty. -/
def getRadarData (db : Db) : RadarData :=
  ⟨(sortArticlesDesc db.articles).map articleRowView,
    (sortTrendsDesc db.trends).map (fun r => ⟨r.name, r.score, r.sentiment⟩),
    match (sortSentimentDesc db.sentiment_overview).head? with
    | some r => ⟨r.overall, r.score, r.media_insights⟩
    | none => ⟨"neutral", 1/2, none⟩⟩

/-- `getLastUpdateTime` from `src/lib/db.ts`: `created_at` of the most
recently created article, if any. -/
def getLastUpdateTime (db : Db) : Option Millis :=
  ((sortArticlesDesc db.articles).head?).map (fun r => r.created_at)

/-- `CACHE_TTL` from `src/app/api/articles/route.ts` (10 seconds). -/
def CACHE_TTL : Int := 10 * 1000

/-- The fixed refresh period added to `lastUpdate` (30 minutes). -/
def REFRESH_PERIOD_MILLIS : Int := 30 * 60 * 1000

/-- The JSON body served by GET /api/articles. -/
structure ApiResponse where
  data : RadarData
  lastUpdate : Option Millis
  nextUpdate : Option Millis
deriving DecidableEq

/-- The route module's mutable cache slot (`cachedResponse`,
`cacheTimestamp`). -/
structure CacheState where
  cachedResponse : Option ApiResponse
  cacheTimestamp : Millis
deriving DecidableEq

/-- HTTP outcome of the articles GET: a 200 JSON body or the 500 error
response. -/
inductive GetOutcome where
  | ok (resp : ApiResponse)
  | serverError
deriving DecidableEq

/-- Result of one GET call: the response, the cache slot afterwards, and
whether the persistence layer was queried. -/
structure GetResult where
  outcome : GetOutcome
  state : CacheState
  queriedDb : Bool
deriving DecidableEq

/-- Recompute-and-cache path of the GET handler.  `dbRead = none` models
the database queries throwing; the cache is written only after both reads
succeed. -/
def articlesRecompute (s : CacheState) (now : Millis) (dbRead : Option Db) :
    GetResult :=
  match dbRead with
  | none => ⟨.serverError, s, true⟩
  | some db =>
    let lastUpdate := getLastUpdateTime db
    let resp : ApiResponse :=
      ⟨getRadarData db, lastUpdate, lastUpdate.map (fun t => t + REFRESH_PERIOD_MILLIS)⟩
    ⟨.ok resp, ⟨some resp, now⟩, true⟩

/-- GET /api/articles from `src/app/api/articles/route.ts`: serve the
cached response when the slot is populated and younger than the TTL,
otherwise recompute from the database and repopulate the slot. -/
def articlesGET (s : CacheState) (now : Millis) (dbRead : Option Db) :
    GetResult :=
  match s.cachedResponse with
  | some r =>
    if now - s.cacheTimestamp < CACHE_TTL then ⟨.ok r, s, false⟩
    else articlesRecompute s now dbRead
  | none => articlesRecompute s now dbRead

/-- Events of the client refresh state machine in `src/app/page.tsx`. -/
inductive ClientEvent where
  | tick (expired : Bool)
  | intervalFire
  | timerFire
  | fetchSettle
deriving DecidableEq

/-- Client-side refresh state: the `refreshingRef` guard flag, the number
of pending deferred `setTimeout(fetchArticles, 5000)` callbacks, and the
number of `fetchArticles` calls in flight. -/
structure ClientState where
  refreshing : Bool
  scheduledFetches : Nat
  inFlightFetches : Nat
deriving DecidableEq

/-- The client state on mount, before any event. -/
def clientStart : ClientState := ⟨false, 0, 0⟩

/-- One event of the client state machine, from `src/app/page.tsx`:
`tick expired` is one run of the countdown callback with
`nextUpdate - now ≤ 0` iff `expired` (it schedules a deferred fetch only
when the guard flag is clear, setting the flag); `intervalFire` is a
direct `fetchArticles()` call (the 30-minute auto-refresh interval or the
mount effect), which neither checks nor sets the flag; `timerFire` starts
a previously scheduled deferred fetch; `fetchSettle` finishes an in-flight
fetch, whose `finally` clears the guard flag.  `none` marks an event that
cannot occur in the given state. -/
def clientStep (s : ClientState) : ClientEvent → Option ClientState
  | .tick expired =>
    if expired then
      if s.refreshing then some s
      else some { s with refreshing := true, scheduledFetches := s.scheduledFetches + 1 }
    else some s
  | .intervalFire => some { s with inFlightFetches := s.inFlightFetches + 1 }
  | .timerFire =>
    match s.scheduledFetches with
    | 0 => none
    | n + 1 => some { s with scheduledFetches := n, inFlightFetches := s.inFlightFetches + 1 }
  | .fetchSettle =>
    match s.inFlightFetches with
    | 0 => none
    | n + 1 => some { s with inFlightFetches := n, refreshing := false }

/-- Run a sequence of client events. -/
def runClient : List ClientEvent → ClientState → Option ClientState
  | [], s => some s
  | e :: es, s =>
    match clientStep s e with
    | none => none
    | some t => runClient es t

/-- The guard's goal state predicate: no two fetches scheduled or in
flight concurrently. -/
def atMostOnePending (s : ClientState) : Prop :=
  s.scheduledFetches + s.inFlightFetches ≤ 1

/-- Strengthened guard invariant for countdown-only runs: the flag is set
exactly while a deferred fetch is scheduled or in flight. -/
def guardInvariant (s : ClientState) : Prop :=
  s.scheduledFetches + s.inFlightFetches ≤ 1
  ∧ (s.refreshing = true ↔ s.scheduledFetches + s.inFlightFetches = 1)

/-- A sample article input with url "u". -/
def sampleArticle1 : ArticleInput :=
  ⟨"first title", none, none, none, none, "u", "positive", "Tesla", "ts1", none⟩

/-- A second sample article input with the same url "u" and different
mutable fields. -/
def sampleArticle2 : ArticleInput :=
  ⟨"second title", some "img", none, none, none, "u", "negative", "SpaceX",
    "ts2", some "snip"⟩

/-- A neutral sample sentiment input. -/
def sampleSentiment : SentimentInput := ⟨"neutral", 1/2, none⟩

/-- An article row created at time 0. -/
def staleRow : ArticleRow :=
  ⟨1, "old", none, none, none, none, "old-url", "neutral", "General", "ts0",
    none, 0⟩

/-- A database holding only `staleRow`. -/
def staleDb : Db := ⟨[staleRow], [], [], 2, 1, 1⟩

/-- 101 trivial save cycles at strictly increasing times. -/
def capCycleInputs : List CycleInput :=
  (List.range 101).map (fun k => ⟨(k : Int) * 1000, [], [], ⟨"neutral", 1/2, none⟩⟩)

/-- The response computed from an empty database. -/
def sampleResponse : ApiResponse := ⟨⟨[], [], ⟨"neutral", 1/2, none⟩⟩, none, none⟩

/-- A populated cache slot stamped at time 0. -/
def cachedSlotSample : CacheState := ⟨some sampleResponse, 0⟩

theorem dedupeGo_sublist (seen : List String) (ps : List ParsedPost) :
    (dedupeGo seen ps).Sublist ps := by
  induction ps generalizing seen with
  | nil => simp [dedupeGo]
  | cons p ps ih =>
    rw [dedupeGo]
    split
    · exact (ih seen).cons p
    · exact (ih (postUrl p :: seen)).cons₂ p

theorem dedupeGo_filter_mem_seen (seen : List String) (ps : List ParsedPost)
    (u : String) (hu : u ∈ seen) :
    (dedupeGo seen ps).filter (fun p => postUrl p == u) = [] := by
  induction ps generalizing seen with
  | nil => simp [dedupeGo]
  | cons p ps ih =>
    rw [dedupeGo]
    split
    · exact ih seen hu
    · rename_i hcond
      have hne : (postUrl p == u) = false := by
        simp only [Bool.or_eq_true, not_or] at hcond
        refine beq_eq_false_iff_ne.mpr ?_
        intro hne2
        exact hcond.2 (by simp [List.contains_iff_exists_mem_beq, hne2, hu])
      simp only [List.filter_cons, hne, Bool.false_eq_true, if_false]
      exact ih (postUrl p :: seen) (List.mem_cons_of_mem _ hu)

theorem dedupeGo_filter_eq_find (seen : List String) (ps : List ParsedPost)
    (u : String) (hne : u ≠ "") (hu : u ∉ seen) :
    (dedupeGo seen ps).filter (fun p => postUrl p == u)
      = (ps.find? (fun p => postUrl p == u)).toList := by
  induction ps generalizing seen with
  | nil => simp [dedupeGo]
  | cons p ps ih =>
    rw [dedupeGo]
    split
    · rename_i hcond
      have hpu : (postUrl p == u) = false := by
        refine beq_eq_false_iff_ne.mpr ?_
        intro h
        rcases Bool.or_eq_true _ _ |>.mp hcond with h1 | h2
        · exact hne (by simpa [urlFalsy, h] using h1)
        · refine hu ?_
          have hmem : postUrl p ∈ seen := by simpa using h2
          rwa [h] at hmem
      simp only [List.find?_cons, hpu]
      exact ih seen hu
    · rename_i hcond
      by_cases hpu : postUrl p = u
      · have hpu2 : (postUrl p == u) = true := by simp [hpu]
        simp only [List.find?_cons, hpu2, List.filter_cons, if_true]
        rw [dedupeGo_filter_mem_seen _ _ _ (by simp [hpu])]
        rfl
      · have hpu2 : (postUrl p == u) = false := beq_eq_false_iff_ne.mpr hpu
        simp only [List.find?_cons, hpu2, List.filter_cons, Bool.false_eq_true, if_false]
        refine ih (postUrl p :: seen) ?_
        simp only [List.mem_cons, not_or]
        exact ⟨fun h => hpu h.symm, hu⟩

theorem dedupeGo_filter_falsy (seen : List String) (ps : List ParsedPost) :
    (dedupeGo seen ps).filter (fun p => urlFalsy p) = [] := by
  induction ps generalizing seen with
  | nil => simp [dedupeGo]
  | cons p ps ih =>
    rw [dedupeGo]
    split
    · exact ih seen
    · rename_i hcond
      simp only [Bool.or_eq_true, not_or] at hcond
      have hf : urlFalsy p = false := Bool.not_eq_true _ |>.mp hcond.1
      simp only [List.filter_cons, hf, Bool.false_eq_true, if_false]
      exact ih (postUrl p :: seen)

/-- C1: Deduplication by URL.  The result is a sublist of the input (input
order, no new entries); for every non-empty url `u` the result's entries
with url `u` are exactly the first post with url `u` in input order (one
entry when `u` occurs, none otherwise); and no entry with a missing/empty
url survives. -/
theorem C1_dedup_by_url (posts : List ParsedPost) :
    (deduplicatePosts posts).Sublist posts
    ∧ (∀ u : String, u ≠ "" →
        (deduplicatePosts posts).filter (fun p => postUrl p == u)
          = (posts.find? (fun p => postUrl p == u)).toList)
    ∧ (deduplicatePosts posts).filter (fun p => urlFalsy p) = [] := by
  refine ⟨dedupeGo_sublist [] posts, fun u hu => ?_, dedupeGo_filter_falsy [] posts⟩
  exact dedupeGo_filter_eq_find [] posts u hu (by simp)

/-- C1 witness: `C1_dedup_by_url` applied to the spec's own example shape
`[a, b, a]` plus a url-less post, with the inner hypothesis discharged at
u = "a". -/
theorem C1_dedup_by_url_witness :
    ("a" : String) ≠ ""
    ∧ (deduplicatePosts [samplePostA, samplePostB, samplePostA2, samplePostNoUrl]).filter
        (fun p => postUrl p == "a")
        = ([samplePostA, samplePostB, samplePostA2, samplePostNoUrl].find?
            (fun p => postUrl p == "a")).toList :=
  ⟨by decide,
    (C1_dedup_by_url [samplePostA, samplePostB, samplePostA2, samplePostNoUrl]).2.1
      "a" (by decide)⟩

/-- C4 counterexample: on `fallThroughText` the code returns the default --
after the fenced json block's content "bad" fails to parse it re-tries only
the WHOLE string, never the bare fenced block -- while the claimed
candidate-by-candidate fall-through would parse the bare block's "7". -/
theorem C4_parser_counterexample :
    parseJsonResponse onlySevenIsJson (some fallThroughText) = ParseOutcome.defaultValue
    ∧ parseSpecClaimed onlySevenIsJson (some fallThroughText)
        = ParseOutcome.parsedFrom "7".data
    ∧ parseJsonResponse onlySevenIsJson (some fallThroughText)
        ≠ parseSpecClaimed onlySevenIsJson (some fallThroughText) := by
  refine ⟨?_, ?_, ?_⟩ <;> decide

/-- C4 amended: for every parse predicate and every input, the parser
chooses one primary candidate (fenced json block if matched, else bare
fenced block if matched, else the whole string), re-tries the whole string
if the primary fails to parse, and returns the canonical default if both
fail (also for empty/undefined input); it is total and only ever reports a
successfully parsed candidate, so no failure escapes its boundary. -/
theorem C4_parser_amended (jparse : List Char → Bool) (t : Option (List Char)) :
    parseJsonResponse jparse t = parseAmendedSpec jparse t
    ∧ (parseJsonResponse jparse t = ParseOutcome.defaultValue
        ∨ ∃ c, parseJsonResponse jparse t = ParseOutcome.parsedFrom c ∧ jparse c = true) := by
  constructor
  · cases t with
    | none => rfl
    | some text =>
      simp only [parseJsonResponse, parseAmendedSpec]
      by_cases he : text.isEmpty
      · simp [he]
      · simp only [he, if_false]
        cases hA : extractBetween jsonFenceOpenTok fenceCloseTok text with
        | some m =>
          simp only [List.find?]
          by_cases hp : jparse m
          · simp [hp]
          · simp only [Bool.not_eq_true] at hp
            simp [hp]
            by_cases hq : jparse text
            · simp [hq]
            · simp only [Bool.not_eq_true] at hq
              simp [hq]
        | none =>
          cases hB : extractBetween bareFenceOpenTok fenceCloseTok text with
          | some m =>
            simp only [List.find?]
            by_cases hp : jparse m
            · simp [hp]
            · simp only [Bool.not_eq_true] at hp
              simp [hp]
              by_cases hq : jparse text
              · simp [hq]
              · simp only [Bool.not_eq_true] at hq
                simp [hq]
          | none =>
            simp only [List.find?]
            by_cases hq : jparse text
            · simp [hq]
            · simp only [Bool.not_eq_true] at hq
              simp [hq]
  · cases t with
    | none => exact Or.inl rfl
    | some text =>
      simp only [parseJsonResponse]
      by_cases he : text.isEmpty
      · simp [he]
      · simp only [he, if_false]
        set cand :=
          (match
            (match extractBetween jsonFenceOpenTok fenceCloseTok text with
              | some m => some m
              | none => extractBetween bareFenceOpenTok fenceCloseTok text) with
            | some m => m
            | none => text) with hc
        by_cases hp : jparse cand
        · exact Or.inr ⟨cand, by simp [hp], hp⟩
        · simp only [Bool.not_eq_true] at hp
          by_cases hq : jparse text
          · exact Or.inr ⟨text, by simp [hp, hq], hq⟩
          · simp only [Bool.not_eq_true] at hq
            exact Or.inl (by simp [hp, hq])

/-- C7 counterexample: a general-news post to which the model assigned no
company value is returned with no company value -- nothing in the cited
code defaults it to "General" (that default exists only inside the prompt
text sent to the model). -/
theorem C7_company_counterexample :
    fetchGeneralElonNewsTag [postNoCompany] = [postNoCompany]
    ∧ postNoCompany.company = none
    ∧ List.map ParsedPost.company (fetchGeneralElonNewsTag [postNoCompany])
        ≠ [some "General"] := by
  refine ⟨rfl, rfl, by decide⟩

/-- C7 amended: entity-scoped calls (X search and company news search)
overwrite every returned post's company with the configured entity name,
regardless of the model's value; general-news calls return every post with
exactly the company value the model assigned, with no defaulting applied. -/
theorem C7_company_tagging (name : String) (posts : List ParsedPost) :
    (∀ p ∈ fetchCompanyXDataTag name posts, p.company = some name)
    ∧ (∀ p ∈ fetchCompanyNewsDataTag name posts, p.company = some name)
    ∧ fetchGeneralElonNewsTag posts = posts := by
  refine ⟨fun p hp => ?_, fun p hp => ?_, rfl⟩ <;>
  · simp only [fetchCompanyXDataTag, fetchCompanyNewsDataTag, List.mem_map] at hp
    obtain ⟨q, _, rfl⟩ := hp
    rfl

/-- C7 witness: `C7_company_tagging` applied to a concrete entity name and
post list, with the membership hypothesis discharged by evaluation. -/
theorem C7_company_tagging_witness :
    ({ postNoCompany with company := some "Tesla" } : ParsedPost) ∈
        fetchCompanyXDataTag "Tesla" [postNoCompany]
    ∧ ({ postNoCompany with company := some "Tesla" } : ParsedPost).company
        = some "Tesla" :=
  ⟨by decide, (C7_company_tagging "Tesla" [postNoCompany]).1 _ (by decide)⟩

/-- C9: for every database state with an empty sentiment_overview table,
the snapshot read returns the canonical neutral default (overall
"neutral", score 0.5, media_insights null) rather than failing or omitting
the field. -/
theorem C9_empty_sentiment_default (db : Db)
    (h : db.sentiment_overview = []) :
    (getRadarData db).sentiment_overview = ⟨"neutral", 1/2, none⟩ := by
  simp [getRadarData, sortSentimentDesc, h, List.insertionSort]

/-- C9 witness: `C9_empty_sentiment_default` at the empty database. -/
theorem C9_empty_sentiment_default_witness :
    emptyDb.sentiment_overview = []
    ∧ (getRadarData emptyDb).sentiment_overview = ⟨"neutral", 1/2, none⟩ :=
  ⟨rfl, C9_empty_sentiment_default emptyDb rfl⟩

/-- C8: for any two snapshot reads where, at the time of the second, the
cache slot is populated and less than TTL (10 s) old, the second read
returns exactly the cached response, leaves the slot untouched and does
not query the persistence layer, whatever the underlying database state
has become. -/
theorem articlesGET_hit (s : CacheState) (now : Millis) (dbRead : Option Db)
    (r : ApiResponse) (hpop : s.cachedResponse = some r)
    (hfresh : now - s.cacheTimestamp < CACHE_TTL) :
    articlesGET s now dbRead = ⟨GetOutcome.ok r, s, false⟩ := by
  unfold articlesGET
  split
  next r' heq =>
    rw [hpop] at heq
    injection heq with h2
    subst h2
    rw [if_pos hfresh]
  next heq =>
    rw [hpop] at heq
    cases heq

theorem C8_cache_ttl (s0 : CacheState) (t1 t2 : Millis)
    (dbRead1 dbRead2 : Option Db) (r : ApiResponse)
    (hpop : ((articlesGET s0 t1 dbRead1).state).cachedResponse = some r)
    (hfresh : t2 - ((articlesGET s0 t1 dbRead1).state).cacheTimestamp < CACHE_TTL) :
    articlesGET ((articlesGET s0 t1 dbRead1).state) t2 dbRead2
      = ⟨GetOutcome.ok r, (articlesGET s0 t1 dbRead1).state, false⟩ :=
  articlesGET_hit ((articlesGET s0 t1 dbRead1).state) t2 dbRead2 r hpop hfresh

/-- C8 witness: a first read at t=0 populates the cache from the empty
database; a second read at t=2000 against a CHANGED database returns the
identical cached response without touching the persistence layer. -/
theorem C8_cache_ttl_witness :
    ((articlesGET ⟨none, 0⟩ 0 (some emptyDb)).state).cachedResponse = some sampleResponse
    ∧ (2000 : Int) - ((articlesGET ⟨none, 0⟩ 0 (some emptyDb)).state).cacheTimestamp
        < CACHE_TTL
    ∧ articlesGET ((articlesGET ⟨none, 0⟩ 0 (some emptyDb)).state) 2000 (some staleDb)
        = ⟨GetOutcome.ok sampleResponse, (articlesGET ⟨none, 0⟩ 0 (some emptyDb)).state, false⟩ :=
  ⟨by rfl, by decide,
    C8_cache_ttl ⟨none, 0⟩ 0 2000 (some emptyDb) (some staleDb) sampleResponse
      (by rfl) (by decide)⟩

/-- C10: when the cache slot is not servable (empty or stale) and the
database read throws, the endpoint returns the 500 error and leaves the
cache slot exactly as it was; and on every call the slot either stays
unchanged or is rewritten by a successful recomputation that caches
exactly the ok response it returns -- an error response is never cached
and a previously cached response is never evicted by a failure. -/
theorem C10_error_leaves_cache (s : CacheState) (now : Millis) :
    ((s.cachedResponse = none ∨ CACHE_TTL ≤ now - s.cacheTimestamp) →
      articlesGET s now none = ⟨GetOutcome.serverError, s, true⟩)
    ∧ (∀ dbRead, (articlesGET s now dbRead).state = s
        ∨ ∃ resp, articlesGET s now dbRead
            = ⟨GetOutcome.ok resp, ⟨some resp, now⟩, true⟩) := by
  constructor
  · intro h
    unfold articlesGET
    split
    next r heq =>
      rcases h with h | h
      · rw [h] at heq; cases heq
      · rw [if_neg (not_lt.mpr h)]
        rfl
    next heq => rfl
  · intro dbRead
    unfold articlesGET
    split
    next r heq =>
      by_cases hf : now - s.cacheTimestamp < CACHE_TTL
      · rw [if_pos hf]
        exact Or.inl rfl
      · rw [if_neg hf]
        cases dbRead with
        | none => exact Or.inl rfl
        | some db => exact Or.inr ⟨_, rfl⟩
    next heq =>
      cases dbRead with
      | none => exact Or.inl rfl
      | some db => exact Or.inr ⟨_, rfl⟩

/-- C10 witness: `C10_error_leaves_cache` at a populated-but-stale slot and
a throwing database read: the 500 response is returned and the previously
cached response survives untouched. -/
theorem C10_error_leaves_cache_witness :
    (cachedSlotSample.cachedResponse = none
      ∨ CACHE_TTL ≤ (10000 : Int) - cachedSlotSample.cacheTimestamp)
    ∧ articlesGET cachedSlotSample 10000 none
        = ⟨GetOutcome.serverError, cachedSlotSample, true⟩ :=
  ⟨Or.inr (by decide), (C10_error_leaves_cache cachedSlotSample 10000).1 (Or.inr (by decide))⟩

theorem retentionMillis_nonneg : (0 : Int) ≤ retentionMillis := by
  norm_num [retentionMillis, ARTICLE_RETENTION_HOURS]

theorem cleanupCutoff_le (now : Millis) : cleanupCutoff now ≤ now :=
  sub_le_self now retentionMillis_nonneg

theorem upsertArticle_created_at_bound (now : Millis) (a : ArticleInput)
    (db : Db) (c : Millis) (hc : c ≤ now)
    (h : ∀ r ∈ db.articles, c ≤ r.created_at) :
    ∀ r ∈ (upsertArticle now a db).articles, c ≤ r.created_at := by
  intro r hr
  unfold upsertArticle at hr
  split at hr
  · simp only [List.mem_map] at hr
    obtain ⟨q, hq, rfl⟩ := hr
    by_cases hu : (q.url == a.url) = true
    · simpa [hu, applyArticleUpdate] using h q hq
    · simpa [hu] using h q hq
  · rcases List.mem_append.mp hr with hq | hq
    · exact h r hq
    · simp only [List.mem_singleton] at hq
      subst hq
      simpa [freshArticleRow] using hc

theorem foldl_upsert_created_at_bound (now c : Millis) (hc : c ≤ now)
    (l : List ArticleInput) :
    ∀ db : Db, (∀ r ∈ db.articles, c ≤ r.created_at) →
      ∀ r ∈ (l.foldl (fun d a => upsertArticle now a d) db).articles,
        c ≤ r.created_at := by
  induction l with
  | nil => intro db h; simpa using h
  | cons a l ih =>
    intro db h
    exact ih _ (upsertArticle_created_at_bound now a db c hc h)

/-- C3: after every execution of the save operation, no article row has
created_at earlier than the retention cutoff (48 h before the cleanup
step's time): cleanup runs first, upserts preserve a surviving row's
created_at, and inserts stamp the current time, so no expired row survives
or is resurrected within the same save. -/
theorem C3_retention_invariant (now : Millis) (articles : List ArticleInput)
    (trends : List TrendInput) (s : SentimentInput) (db : Db) :
    ∀ r ∈ ((saveRadarData now articles trends s db).1).articles,
      cleanupCutoff now ≤ r.created_at := by
  intro r hr
  have harts : ((saveRadarData now articles trends s db).1).articles
      = (articles.foldl (fun d a => upsertArticle now a d)
          { db with articles := cleanupKeep now db.articles }).articles := rfl
  rw [harts] at hr
  refine foldl_upsert_created_at_bound now _ (cleanupCutoff_le now) articles _
    (fun q hq => ?_) r hr
  simp only [cleanupKeep, List.mem_filter] at hq
  exact of_decide_eq_true hq.2

/-- C3 witness: `C3_retention_invariant` on a database holding one expired
row, at the row freshly inserted by the save. -/
theorem C3_retention_invariant_witness :
    freshArticleRow 200000000 2 sampleArticle1
        ∈ ((saveRadarData 200000000 [sampleArticle1] [] sampleSentiment staleDb).1).articles
    ∧ cleanupCutoff 200000000 ≤ (freshArticleRow 200000000 2 sampleArticle1).created_at :=
  ⟨by decide,
    C3_retention_invariant 200000000 [sampleArticle1] [] sampleSentiment staleDb
      (freshArticleRow 200000000 2 sampleArticle1) (by decide)⟩

theorem save_singleton_articles (now : Millis) (a : ArticleInput)
    (tr : List TrendInput) (s : SentimentInput) (db : Db) :
    ((saveRadarData now [a] tr s db).1).articles
      = (upsertArticle now a { db with articles := cleanupKeep now db.articles }).articles := rfl

theorem upsert_insert (now : Millis) (a : ArticleInput) (db : Db)
    (h : db.articles.any (fun r => r.url == a.url) = false) :
    (upsertArticle now a db).articles
      = db.articles ++ [freshArticleRow now db.nextArticleId a] := by
  unfold upsertArticle
  rw [h]
  rfl

theorem upsert_update (now : Millis) (a : ArticleInput) (db : Db)
    (h : db.articles.any (fun r => r.url == a.url) = true) :
    (upsertArticle now a db).articles
      = db.articles.map (fun r => if r.url == a.url then applyArticleUpdate a r else r) := by
  unfold upsertArticle
  rw [h]
  rfl

/-- C2 counterexample: with the two save cycles more than the 48 h
retention window apart, the second cycle's cleanup deletes the row before
its upsert runs, so the article is re-INSERTED: the surviving row carries
the second cycle's `created_at` (not the first insertion's) and a fresh
`id`.  The claim as stated, with no condition on the cycle spacing, is
therefore false. -/
theorem C2_upsert_counterexample :
    urlRows "u" ((saveRadarData 400000000 [sampleArticle2] [] sampleSentiment
        ((saveRadarData 0 [sampleArticle1] [] sampleSentiment emptyDb).1)).1)
      = [freshArticleRow 400000000 2 sampleArticle2]
    ∧ (freshArticleRow 400000000 2 sampleArticle2).created_at ≠ (0 : Int)
    ∧ (freshArticleRow 400000000 2 sampleArticle2).id ≠ 1 := by
  refine ⟨by decide, by decide, by decide⟩

/-- C2 amended: if the second cycle runs within the retention window of
the first insertion (`cleanupCutoff t2 ≤ t1`), then saving the same url in
two separate cycles leaves exactly one row for that url, whose mutable
fields (title, media fields, sentiment, company, timestamp, snippet) are
those of the second cycle and whose id and created_at are those of the
first insertion. -/
theorem C2_upsert_idempotence (db0 : Db) (t1 t2 : Millis)
    (a1 a2 : ArticleInput) (tr1 tr2 : List TrendInput)
    (s1 s2 : SentimentInput)
    (hurl : a1.url = a2.url)
    (habsent : ∀ r ∈ db0.articles, r.url ≠ a2.url)
    (hret : cleanupCutoff t2 ≤ t1) :
    urlRows a2.url ((saveRadarData t2 [a2] tr2 s2
        ((saveRadarData t1 [a1] tr1 s1 db0).1)).1)
      = [⟨db0.nextArticleId, a2.title, a2.image_url, a2.video_url,
          a2.media_analysis, a2.media_sentiment, a2.url, a2.sentiment,
          a2.company, a2.timestamp, a2.snippet, t1⟩] := by
  have hany1 : (cleanupKeep t1 db0.articles).any (fun r => r.url == a1.url) = false := by
    rw [List.any_eq_false]
    intro r hr
    have hr0 : r ∈ db0.articles := (List.mem_filter.mp hr).1
    simp [hurl, habsent r hr0]
  have h1 : ((saveRadarData t1 [a1] tr1 s1 db0).1).articles
      = cleanupKeep t1 db0.articles ++ [freshArticleRow t1 db0.nextArticleId a1] :=
    (save_singleton_articles t1 a1 tr1 s1 db0).trans
      (upsert_insert t1 a1 { db0 with articles := cleanupKeep t1 db0.articles } hany1)
  have h2 : cleanupKeep t2 (((saveRadarData t1 [a1] tr1 s1 db0).1).articles)
      = cleanupKeep t2 (cleanupKeep t1 db0.articles)
          ++ [freshArticleRow t1 db0.nextArticleId a1] := by
    rw [h1]
    unfold cleanupKeep
    rw [List.filter_append]
    congr 1
    simp [freshArticleRow, hret]
  have hany2 : ((cleanupKeep t2 (((saveRadarData t1 [a1] tr1 s1 db0).1).articles)).any
      (fun r => r.url == a2.url)) = true := by
    rw [h2, List.any_eq_true]
    exact ⟨freshArticleRow t1 db0.nextArticleId a1, by simp,
      by simp [freshArticleRow, hurl]⟩
  have h3 : ((saveRadarData t2 [a2] tr2 s2 ((saveRadarData t1 [a1] tr1 s1 db0).1)).1).articles
      = (cleanupKeep t2 (((saveRadarData t1 [a1] tr1 s1 db0).1).articles)).map
          (fun r => if r.url == a2.url then applyArticleUpdate a2 r else r) :=
    (save_singleton_articles t2 a2 tr2 s2 _).trans
      (upsert_update t2 a2 { (saveRadarData t1 [a1] tr1 s1 db0).1 with
        articles := cleanupKeep t2 (((saveRadarData t1 [a1] tr1 s1 db0).1).articles) } hany2)
  unfold urlRows
  rw [h3, h2, List.map_append, List.filter_append]
  have hleft : (((cleanupKeep t2 (cleanupKeep t1 db0.articles)).map
      (fun r => if r.url == a2.url then applyArticleUpdate a2 r else r)).filter
        (fun r => r.url == a2.url)) = [] := by
    rw [List.filter_eq_nil_iff]
    intro r hr
    simp only [List.mem_map] at hr
    obtain ⟨q, hq, rfl⟩ := hr
    have hq0 : q ∈ db0.articles := (List.mem_filter.mp (List.mem_filter.mp hq).1).1
    have hne : q.url ≠ a2.url := habsent q hq0
    simp [hne]
  rw [hleft]
  simp [freshArticleRow, applyArticleUpdate, hurl]

/-- C2 witness: `C2_upsert_idempotence` at concrete inputs, two cycles one
second apart on the empty database. -/
theorem C2_upsert_idempotence_witness :
    sampleArticle1.url = sampleArticle2.url
    ∧ cleanupCutoff 1000 ≤ (0 : Int)
    ∧ urlRows sampleArticle2.url ((saveRadarData 1000 [sampleArticle2] [] sampleSentiment
        ((saveRadarData 0 [sampleArticle1] [] sampleSentiment emptyDb).1)).1)
      = [⟨emptyDb.nextArticleId, sampleArticle2.title, sampleArticle2.image_url,
          sampleArticle2.video_url, sampleArticle2.media_analysis,
          sampleArticle2.media_sentiment, sampleArticle2.url, sampleArticle2.sentiment,
          sampleArticle2.company, sampleArticle2.timestamp, sampleArticle2.snippet, 0⟩] :=
  ⟨rfl, by decide,
    C2_upsert_idempotence emptyDb 0 1000 sampleArticle1 sampleArticle2 [] [] sampleSentiment
      sampleSentiment rfl (by decide) (by decide)⟩

/-- C5 counterexample: a countdown expiry schedules a deferred fetch and
sets the guard flag, but the 30-minute auto-refresh interval calls
`fetchArticles()` directly without consulting the flag: after the run
[tick expired, intervalFire] one fetch is scheduled AND one is in flight,
so the guard does not cover both trigger paths and the claimed
never-two-pending property fails. -/
theorem C5_guard_counterexample :
    runClient [ClientEvent.tick true, ClientEvent.intervalFire] clientStart
      = some ⟨true, 1, 1⟩
    ∧ ¬ atMostOnePending ⟨true, 1, 1⟩ := by
  constructor
  · rfl
  · unfold atMostOnePending
    decide

theorem clientStep_guardInvariant (s t : ClientState) (e : ClientEvent)
    (hne : e ≠ ClientEvent.intervalFire)
    (hs : guardInvariant s) (hstep : clientStep s e = some t) :
    guardInvariant t := by
  obtain ⟨hle, hiff⟩ := hs
  cases e with
  | tick expired =>
    unfold clientStep at hstep
    cases expired with
    | false =>
      simp only [Bool.false_eq_true, if_false, Option.some.injEq] at hstep
      subst hstep
      exact ⟨hle, hiff⟩
    | true =>
      simp only [if_true] at hstep
      by_cases hr : s.refreshing = true
      · rw [if_pos hr] at hstep
        injection hstep with h2
        subst h2
        exact ⟨hle, hiff⟩
      · rw [if_neg hr] at hstep
        injection hstep with h2
        subst h2
        have hzero : s.scheduledFetches + s.inFlightFetches = 0 := by
          rcases Nat.lt_or_ge (s.scheduledFetches + s.inFlightFetches) 1 with h | h
          · omega
          · exact absurd (hiff.mpr (by omega)) hr
        constructor
        · simp
          omega
        · simp
          omega
  | intervalFire => exact absurd rfl hne
  | timerFire =>
    unfold clientStep at hstep
    cases hsc : s.scheduledFetches with
    | zero => rw [hsc] at hstep; cases hstep
    | succ n =>
      rw [hsc] at hstep
      injection hstep with h2
      subst h2
      have h1 : n = 0 ∧ s.inFlightFetches = 0 := by omega
      have hr : s.refreshing = true := hiff.mpr (by omega)
      constructor
      · simp
        omega
      · simp [hr]
        omega
  | fetchSettle =>
    unfold clientStep at hstep
    cases hfl : s.inFlightFetches with
    | zero => rw [hfl] at hstep; cases hstep
    | succ n =>
      rw [hfl] at hstep
      injection hstep with h2
      subst h2
      have h1 : n = 0 ∧ s.scheduledFetches = 0 := by omega
      constructor
      · simp
        omega
      · simp
        omega

theorem runClient_guardInvariant (evs : List ClientEvent) :
    ∀ s t : ClientState, ClientEvent.intervalFire ∉ evs → guardInvariant s →
      runClient evs s = some t → guardInvariant t := by
  induction evs with
  | nil =>
    intro s t _ hs h
    injection h with h2
    subst h2
    exact hs
  | cons e es ih =>
    intro s t hnm hs h
    unfold runClient at h
    cases hstep : clientStep s e with
    | none => rw [hstep] at h; cases h
    | some s' =>
      rw [hstep] at h
      refine ih s' t (fun hm => hnm (List.mem_cons_of_mem _ hm)) ?_ h
      exact clientStep_guardInvariant s s' e
        (fun he => hnm (he ▸ List.mem_cons_self _ _)) ⟨hs.1, hs.2⟩ hstep

/-- C5 amended: the in-flight guard covers the countdown path only.  In
every run from the start state that contains no direct fetch event (the
mount fetch or the 30-minute auto-refresh interval, which bypass the
guard), at most one deferred fetch is ever scheduled or in flight at a
time.  With interval events the property fails (see the counterexample). -/
theorem C5_guard_countdown_only (evs : List ClientEvent) (t : ClientState)
    (hnoInterval : ClientEvent.intervalFire ∉ evs)
    (hrun : runClient evs clientStart = some t) :
    atMostOnePending t := by
  have h0 : guardInvariant clientStart := by
    unfold guardInvariant clientStart
    simp
  exact (runClient_guardInvariant evs clientStart t hnoInterval h0 hrun).1

/-- C5 witness: `C5_guard_countdown_only` on a concrete countdown-only run
in which the countdown expires, the deferred fetch fires and settles, and
the countdown expires again. -/
theorem C5_guard_countdown_only_witness :
    ClientEvent.intervalFire ∉ [ClientEvent.tick true, ClientEvent.timerFire,
        ClientEvent.fetchSettle, ClientEvent.tick true]
    ∧ runClient [ClientEvent.tick true, ClientEvent.timerFire,
        ClientEvent.fetchSettle, ClientEvent.tick true] clientStart = some ⟨true, 1, 0⟩
    ∧ atMostOnePending ⟨true, 1, 0⟩ :=
  ⟨by decide, by rfl,
    C5_guard_countdown_only [ClientEvent.tick true, ClientEvent.timerFire,
      ClientEvent.fetchSettle, ClientEvent.tick true] ⟨true, 1, 0⟩ (by decide) (by rfl)⟩

theorem lastN_of_le {α} (n : Nat) (l : List α) (h : l.length ≤ n) :
    lastN n l = l := by
  unfold lastN
  rw [Nat.sub_eq_zero_of_le h, List.drop_zero]

theorem lastN_snoc {α} (n : Nat) (hn : 0 < n) (l : List α) (x : α) :
    lastN n (lastN n l ++ [x]) = lastN n (l ++ [x]) := by
  by_cases h : l.length ≤ n
  · rw [lastN_of_le n l h]
  · push_neg at h
    unfold lastN
    have h1 : (l.drop (l.length - n) ++ [x]).length - n = 1 := by
      rw [List.length_append, List.length_drop]
      simp only [List.length_cons, List.length_nil]
      omega
    have h2 : (l ++ [x]).length - n = (l.length - n) + 1 := by
      rw [List.length_append]
      simp only [List.length_cons, List.length_nil]
      omega
    rw [h1, h2]
    have h3 : (1 : Nat) ≤ (l.drop (l.length - n)).length := by
      rw [List.length_drop]
      omega
    have h4 : (l.length - n) + 1 ≤ l.length := by omega
    rw [List.drop_append_of_le_length h3, List.drop_append_of_le_length h4,
      List.drop_drop]

theorem lastN_map {α β} (f : α → β) (n : Nat) (l : List α) :
    (lastN n l).map f = lastN n (l.map f) := by
  unfold lastN
  rw [List.map_drop, List.length_map]

theorem keepTop100_sorted (rows : List SentimentRow)
    (h : rows.Pairwise (fun a b => a.created_at < b.created_at)) :
    keepTop100Sentiment rows = lastN 100 rows := by
  induction rows with
  | nil => rfl
  | cons r rest ih =>
    have hall : ∀ q ∈ rest, r.created_at < q.created_at :=
      (List.pairwise_cons.mp h).1
    have hrest : rest.Pairwise (fun a b => a.created_at < b.created_at) :=
      (List.pairwise_cons.mp h).2
    have hcount_r : newerCount (r :: rest) r = rest.length := by
      unfold newerCount
      rw [List.filter_cons]
      have h0 : (decide (r.created_at < r.created_at)) = false := by simp
      rw [h0]
      simp only [Bool.false_eq_true, if_false]
      rw [List.filter_eq_self.mpr (fun q hq => decide_eq_true (hall q hq))]
    have hcount_q : ∀ q ∈ rest, newerCount (r :: rest) q = newerCount rest q := by
      intro q hq
      unfold newerCount
      rw [List.filter_cons]
      have h0 : (decide (q.created_at < r.created_at)) = false := by
        simp only [decide_eq_false_iff_not]
        exact not_lt.mpr (le_of_lt (hall q hq))
      rw [h0]
      simp only [Bool.false_eq_true, if_false]
    unfold keepTop100Sentiment
    rw [List.filter_cons]
    rw [List.filter_congr (fun q hq => by rw [hcount_q q hq])]
    rw [hcount_r]
    have hkrest : List.filter (fun x => decide (newerCount rest x < 100)) rest
        = lastN 100 rest := ih hrest
    rw [hkrest]
    by_cases hlen : rest.length < 100
    · have hd : (decide (rest.length < 100)) = true := decide_eq_true hlen
      rw [hd]
      simp only [if_true]
      rw [lastN_of_le 100 rest (by omega),
        lastN_of_le 100 (r :: rest) (by simp; omega)]
    · have hd : (decide (rest.length < 100)) = false := by
        simp only [decide_eq_false_iff_not]
        exact hlen
      rw [hd]
      simp only [Bool.false_eq_true, if_false]
      unfold lastN
      rw [List.length_cons]
      have h5 : rest.length + 1 - 100 = (rest.length - 100) + 1 := by omega
      rw [h5, List.drop_succ_cons]

theorem upsert_sentiment (now : Millis) (a : ArticleInput) (d : Db) :
    (upsertArticle now a d).sentiment_overview = d.sentiment_overview := by
  unfold upsertArticle
  split <;> rfl

theorem upsert_nextSentimentId (now : Millis) (a : ArticleInput) (d : Db) :
    (upsertArticle now a d).nextSentimentId = d.nextSentimentId := by
  unfold upsertArticle
  split <;> rfl

theorem foldl_upsert_sentiment (now : Millis) (l : List ArticleInput) :
    ∀ d : Db,
      (l.foldl (fun d a => upsertArticle now a d) d).sentiment_overview
          = d.sentiment_overview
      ∧ (l.foldl (fun d a => upsertArticle now a d) d).nextSentimentId
          = d.nextSentimentId := by
  induction l with
  | nil => intro d; exact ⟨rfl, rfl⟩
  | cons a l ih =>
    intro d
    constructor
    · rw [List.foldl_cons, (ih _).1, upsert_sentiment]
    · rw [List.foldl_cons, (ih _).2, upsert_nextSentimentId]

theorem save_sentiment (now : Millis) (arts : List ArticleInput)
    (tr : List TrendInput) (s : SentimentInput) (db : Db) :
    ((saveRadarData now arts tr s db).1).sentiment_overview
      = keepTop100Sentiment (db.sentiment_overview
          ++ [⟨db.nextSentimentId, s.overall, s.score,
                jsOrNull s.media_insights, now⟩]) := by
  show keepTop100Sentiment
      ((arts.foldl (fun d a => upsertArticle now a d)
          { db with articles := cleanupKeep now db.articles }).sentiment_overview
        ++ [⟨(arts.foldl (fun d a => upsertArticle now a d)
              { db with articles := cleanupKeep now db.articles }).nextSentimentId,
            s.overall, s.score, jsOrNull s.media_insights, now⟩]) = _
  rw [(foldl_upsert_sentiment now arts _).1, (foldl_upsert_sentiment now arts _).2]

theorem runSaveCycles_sentiment (inputs : List CycleInput) :
    ((inputs.map (fun i => i.now)).Pairwise (· < ·)) →
      sentimentTimes (runSaveCycles inputs emptyDb)
        = lastN 100 (inputs.map (fun i => i.now)) := by
  induction inputs using List.reverseRecOn with
  | nil => intro _; rfl
  | append_singleton p i ih =>
    intro hpairfull
    rw [List.map_append] at hpairfull
    have hpairp : (p.map (fun j => j.now)).Pairwise (· < ·) :=
      List.Pairwise.sublist (List.sublist_append_left _ _) hpairfull
    have hih := ih hpairp
    have hsplit : runSaveCycles (p ++ [i]) emptyDb
        = (saveRadarData i.now i.articles i.trends i.sentimentOverview
            (runSaveCycles p emptyDb)).1 := by
      unfold runSaveCycles
      rw [List.foldl_append]
      rfl
    have hrows : ((runSaveCycles p emptyDb).sentiment_overview
        ++ [(⟨(runSaveCycles p emptyDb).nextSentimentId,
              i.sentimentOverview.overall, i.sentimentOverview.score,
              jsOrNull i.sentimentOverview.media_insights, i.now⟩ : SentimentRow)]).map
          (fun r => r.created_at)
        = lastN 100 (p.map (fun j => j.now)) ++ [i.now] := by
      rw [List.map_append, ← hih]
      rfl
    have hpairrows : ((runSaveCycles p emptyDb).sentiment_overview
        ++ [(⟨(runSaveCycles p emptyDb).nextSentimentId,
              i.sentimentOverview.overall, i.sentimentOverview.score,
              jsOrNull i.sentimentOverview.media_insights, i.now⟩ : SentimentRow)]).Pairwise
          (fun a b => a.created_at < b.created_at) := by
      have hsub : (lastN 100 (p.map (fun j => j.now)) ++ [i.now]).Sublist
          ((p.map (fun j => j.now)) ++ [i.now]) :=
        List.Sublist.append_right (List.drop_sublist _ _) [i.now]
      have hpw := List.Pairwise.sublist hsub hpairfull
      rw [← hrows] at hpw
      exact List.pairwise_map.mp hpw
    unfold sentimentTimes
    rw [hsplit, save_sentiment, keepTop100_sorted _ hpairrows, lastN_map, hrows,
      lastN_snoc 100 (by omega), List.map_append]
    rfl

/-- C6: every save inserts exactly one sentiment row and prunes to the 100
most recent by created_at; consequently, running N > 100 save cycles at
strictly increasing times from an empty database leaves exactly 100
sentiment rows, namely those with the last 100 cycle times. -/
theorem C6_sentiment_history_cap (inputs : List CycleInput)
    (hmono : (inputs.map (fun i => i.now)).Pairwise (· < ·))
    (hlen : 100 < inputs.length) :
    (runSaveCycles inputs emptyDb).sentiment_overview.length = 100
    ∧ sentimentTimes (runSaveCycles inputs emptyDb)
        = (inputs.map (fun i => i.now)).drop (inputs.length - 100) := by
  have h := runSaveCycles_sentiment inputs hmono
  constructor
  · have hlen2 : (sentimentTimes (runSaveCycles inputs emptyDb)).length = 100 := by
      rw [h]
      unfold lastN
      rw [List.length_drop, List.length_map]
      omega
    unfold sentimentTimes at hlen2
    rw [List.length_map] at hlen2
    exact hlen2
  · rw [h]
    unfold lastN
    rw [List.length_map]

/-- C6 witness: `C6_sentiment_history_cap` on 101 concrete trivial cycles
at times 0, 1000, ..., 100000. -/
theorem C6_sentiment_history_cap_witness :
    (capCycleInputs.map (fun i => i.now)).Pairwise (· < ·)
    ∧ 100 < capCycleInputs.length
    ∧ (runSaveCycles capCycleInputs emptyDb).sentiment_overview.length = 100 := by
  refine ⟨by decide, by decide, ?_⟩
  exact (C6_sentiment_history_cap capCycleInputs (by decide) (by decide)).1
